import Mathlib

/-!
Verification of `lib/hersheytext.js` (techninja/hersheytextjs).

Shallow embedding of the glyph resolver, path normalizer, and text layout
engine of the module.  JavaScript strings become `List Char` / `String`,
JS numbers become `ℚ` (all arithmetic in the source is exact on the inputs
it receives; `Math.round(x*100)/100` is modelled exactly on `ℚ`),
fallible code returns `Except JsErr`, and the module-level try/catch that
converts exceptions to the `false` sentinel is modelled by matching the
`Except` at the entry point.
-/

/-- Runtime exceptions that the JavaScript can raise inside the try/catch
blocks of the renderers.  `constAssign` models the TypeError raised by
`lineCount++` / `$groupLine = ...` on `const` bindings, `undefinedAccess`
models property access on `undefined` (e.g. `options.pos.x` with no `pos`,
or `font.info['units-per-em']` when the SVG file has no font-face element),
and `notAFunction` models the `val.subStr(...)` call (the method does not
exist; the real name is `substr`). -/
inductive JsErr where
  | constAssign
  | undefinedAccess
  | notAFunction
  deriving DecidableEq, Repr

/-- JS `Number.parseInt(char, 10)` succeeds on a single character exactly
when it is an ASCII digit; `cleanD` uses `!Number.isNaN(parseInt(char))`
as its digit test. -/
def isDigitChar (c : Char) : Bool := c.isDigit

/-- One pass of `cleanD`'s per-character loop (`[...d].forEach(...)`),
threading the `lastGood` flag.  `lastGood` is `false` exactly when the
previously processed character was a "control char" (a non-digit outside
`' '`, `'.'`, `'-'`). -/
def cleanDCore : List Char → Bool → List Char
  | [], _ => []
  | c :: rest, lastGood =>
    if ¬(c = ' ' ∨ c = '.' ∨ c = '-') then
      if isDigitChar c then
        (if ¬lastGood then [' ', c] else [c]) ++ cleanDCore rest true
      else
        ' ' :: c :: cleanDCore rest false
    else
      (if c = '-' ∧ ¬lastGood then [' ', c] else [c]) ++ cleanDCore rest true

/-- Character class removed by JS `String.prototype.trim` (restricted to
the whitespace that can occur in this pipeline). -/
def isJsSpace (c : Char) : Bool := c == ' ' || c == '\t' || c == '\n' || c == '\r'

/-- JS `.trim()`. -/
def trimWS (l : List Char) : List Char :=
  ((l.dropWhile isJsSpace).reverse.dropWhile isJsSpace).reverse

/-- JS `.replace(/  /g, ' ')`: one left-to-right non-overlapping pass
replacing each double space with a single space. -/
def collapseDouble : List Char → List Char
  | [] => []
  | [c] => [c]
  | c1 :: c2 :: rest =>
    if c1 = ' ' ∧ c2 = ' ' then ' ' :: collapseDouble rest
    else c1 :: collapseDouble (c2 :: rest)

/-- `cleanD(d)` from lib/hersheytext.js lines 21-55:
per-character pass, then `.trim().replace(/  /g, ' ')`. -/
def cleanD (d : List Char) : List Char :=
  collapseDouble (trimWS (cleanDCore d true))

/-- JS `"...".split(' ')`: split on every single space character, keeping
empty fragments. -/
def splitOnSpace : List Char → List (List Char)
  | [] => [[]]
  | ' ' :: rest => [] :: splitOnSpace rest
  | c :: rest =>
    match splitOnSpace rest with
    | g :: gs => (c :: g) :: gs
    | [] => [[c]]

/-- Value of a list of ASCII digit characters, accumulator style. -/
def digitsVal : List Char → ℕ → ℕ
  | [], acc => acc
  | c :: rest, acc => digitsVal rest (acc * 10 + (c.toNat - 48))

/-- Unsigned part of JS `Number.parseFloat`: leading digits, then an
optional fractional part; trailing junk is ignored; `none` when no digit
was consumed (NaN).  Exponent notation cannot occur here: `cleanD` isolates
every letter into its own token. -/
def parseUnsignedQ (s : List Char) : Option ℚ :=
  let ip := s.takeWhile isDigitChar
  let rest := s.drop ip.length
  let fp := match rest with
    | '.' :: r => r.takeWhile isDigitChar
    | _ => []
  if ip = [] ∧ fp = [] then none
  else some ((digitsVal ip 0 : ℚ) + (digitsVal fp 0 : ℚ) / ((10 : ℚ) ^ fp.length))

/-- JS `Number.parseFloat` on one whitespace-free token, as `Option ℚ`
(`none` = NaN). -/
def parseFloatQ (s : List Char) : Option ℚ :=
  match s with
  | '-' :: rest => (parseUnsignedQ rest).map (fun q => -q)
  | '+' :: rest => parseUnsignedQ rest
  | _ => parseUnsignedQ s

/-- Floor of a rational as an integer (the `FloorRing ℚ` instance is
computable). -/
def ratFloor (q : ℚ) : ℤ := ⌊q⌋

/-- JS `Math.round`: floor of `x + 1/2` (halves round up). -/
def jsRound (q : ℚ) : ℤ := ratFloor (q + 1/2)

/-- `Math.round(x * 100) / 100` — round to 2 decimal places. -/
def round2 (q : ℚ) : ℚ := (jsRound (q * 100) : ℚ) / 100

/-- An element of the output list built by `glyphScale` (`out.push(...)`):
either a number or a passed-through non-numeric token.  The final
`out.join(' ')` stringification is abstracted: theorems speak about the
token list. -/
inductive OutTok where
  | num (q : ℚ)
  | str (s : List Char)
  deriving DecidableEq, Repr

/-- The `vals.forEach(...)` loop of `glyphScale` (lines 82-111), threading
`lastCoord` (`true` = `'x'`).  A token that fails to parse resets
`lastCoord` to `'x'`; when such a token has more than one character the
code calls `val.subStr(0, 1)`, which does not exist, so a TypeError is
raised.  A numeric token seen in state `'x'` is pushed as
`round2(v*scale)` and the state moves to `'y'`; a numeric token in state
`'y'` is pushed as `round2((height-v)*scale)` and the state stays `'y'`
(the source never sets `lastCoord` back to `'x'` after a `'y'` value). -/
def gsLoop (height scale : ℚ) : List (List Char) → Bool → Except JsErr (List OutTok)
  | [], _ => .ok []
  | v :: rest, isX =>
    match parseFloatQ v with
    | none =>
      if v.length > 1 then .error .notAFunction
      else (gsLoop height scale rest true).map (fun out => .str v :: out)
    | some pf =>
      if isX then
        (gsLoop height scale rest false).map
          (fun out => .num (round2 (pf * scale)) :: out)
      else
        (gsLoop height scale rest false).map
          (fun out => .num (round2 ((height - pf) * scale)) :: out)

/-- `glyphScale(d, height, scale)` (lines 70-114): a falsy `d` (absent or
empty) is returned unchanged, otherwise the string is cleaned, split on
spaces, and rescaled/flipped by the loop. -/
def glyphScale (d : Option String) (height scale : ℚ) :
    Except JsErr (Option (List OutTok)) :=
  match d with
  | none => .ok none
  | some s =>
    if s.data = [] then .ok (some [])
    else (gsLoop height scale (splitOnSpace (cleanD s.data)) true).map some

/-- One entry of the compact Hershey JSON `chars` array (`{d, o}`);
`o` is the stored advance value, which `parseInt` reads as an integer. -/
structure HersheyChar where
  d : Option String
  o : ℤ
  deriving DecidableEq, Repr

/-- One font of `hersheytext.min.json`: display name plus the
ASCII-offset-indexed glyph array. -/
structure HersheyFont where
  name : String
  chars : List HersheyChar

/-- The `<font-face>` attributes of an SVG font file, reduced to the one
field the module reads (`units-per-em`). -/
structure FontFace where
  unitsPerEm : ℚ
  deriving DecidableEq, Repr

/-- Attributes of one `<glyph>` element of an SVG font file, as read by
`getFontData`: `unicode`, `glyph-name`, `horiz-adv-x`, `d`. -/
structure SvgGlyph where
  unicode : String
  glyphName : String
  horizAdvX : ℚ
  d : Option String
  deriving DecidableEq, Repr

/-- A parsed SVG font file: the `<font-face>` element (absent models a
file without one — `$('font-face').attr()` is then `undefined`) and the
`<glyph>` elements in document order. -/
structure SvgFontFile where
  face : Option FontFace
  glyphs : List SvgGlyph

/-- The module-level font tables: `exports.fonts` (compact Hershey JSON)
and `exports.svgFonts` (the SVG font index, merged here with the file
contents that `fs.readFileSync` + cheerio would produce). -/
structure Catalog where
  fonts : String → Option HersheyFont
  svgFonts : String → Option SvgFontFile

/-- `glyphScaling` constant of the SVG branch of `getFontData`. -/
def glyphScaling : ℚ := 1/10

/-- Normalized record stored in `font.chars[unicode]` for an SVG glyph:
`{name, width, o, d}` with `width = o = horiz-adv-x * glyphScaling` and
`d` rescaled by `glyphScale`. -/
structure SvgCharRec where
  name : String
  width : ℚ
  o : ℚ
  d : Option (List OutTok)
  deriving DecidableEq, Repr

/-- Processing of a single `<glyph>` inside `$('glyph').each(...)`
(lines 151-162): a glyph whose `unicode` is the space character is
skipped; otherwise `font.info['units-per-em']` is read (TypeError when
`font.info` is `undefined`), the path is rescaled (which may itself
throw), and the record is stored under the glyph's unicode key
(later glyphs overwrite earlier ones with the same key). -/
def addGlyph (face : Option FontFace) (m : String → Option SvgCharRec)
    (g : SvgGlyph) : Except JsErr (String → Option SvgCharRec) :=
  if g.unicode = " " then .ok m
  else
    match face with
    | none => .error .undefinedAccess
    | some fc =>
      match glyphScale g.d fc.unitsPerEm glyphScaling with
      | .error e => .error e
      | .ok dScaled =>
        .ok (Function.update m g.unicode
          (some { name := g.glyphName
                  width := g.horizAdvX * glyphScaling
                  o := g.horizAdvX * glyphScaling
                  d := dScaled }))

/-- The `$('glyph').each(...)` loop over all glyph elements. -/
def foldGlyphs (face : Option FontFace) :
    List SvgGlyph → (String → Option SvgCharRec) →
    Except JsErr (String → Option SvgCharRec)
  | [], m => .ok m
  | g :: rest, m =>
    match addGlyph face m g with
    | .ok m2 => foldGlyphs face rest m2
    | .error e => .error e

/-- The font object returned by `getFontData`: the default object (whose
`getChar` always yields `null`), a compact Hershey font, or an SVG font
with its keyed char table. -/
inductive FontData where
  | invalid
  | compact (name : String) (chars : List HersheyChar)
  | svg (face : Option FontFace) (chars : String → Option SvgCharRec)

/-- A glyph record as returned by `font.getChar`. -/
inductive CharRec where
  | compact (g : HersheyChar)
  | svg (r : SvgCharRec)
  deriving DecidableEq, Repr

/-- `font.getChar(char)`.  Compact fonts index `font.chars` at
`char.charCodeAt(0) - 33` (a negative or out-of-range index reads as
`undefined`); SVG fonts look the character up directly as an object key;
the invalid-font default returns `null` for everything. -/
def FontData.getChar : FontData → Char → Option CharRec
  | .invalid, _ => none
  | .compact _ cs, c =>
    let i : ℤ := (c.toNat : ℤ) - 33
    if i < 0 then none else (cs.get? i.toNat).map CharRec.compact
  | .svg _ m, c => (m (String.singleton c)).map CharRec.svg

/-- `getFontData(fontName)` (lines 126-169).  The compact table is
checked first, then the SVG table (building the keyed char table, which
can raise), otherwise the degenerate "Invalid Font" object is returned. -/
def getFontData (cat : Catalog) (fid : String) : Except JsErr FontData :=
  match cat.fonts fid with
  | some hf => .ok (.compact hf.name hf.chars)
  | none =>
    match cat.svgFonts fid with
    | some sf => (foldGlyphs sf.face sf.glyphs (fun _ => none)).map (.svg sf.face)
    | none => .ok .invalid

/-- Glyph resolution through `getFontData`: `some r` when the font loaded
without an exception and the lookup yielded `r` (`some none` = loaded,
character absent); `none` when loading itself raised. -/
def resolveChar (cat : Catalog) (fid : String) (c : Char) :
    Option (Option CharRec) :=
  match getFontData cat fid with
  | .ok f => some (f.getChar c)
  | .error _ => none

/-- State-passing form of `getFontData`: the source performs no writes to
`exports.fonts` / `exports.svgFonts` (its only writes target the local
`font` object), so the catalog component passes through unchanged. -/
def getFontDataSt (cat : Catalog) (fid : String) :
    Except JsErr FontData × Catalog :=
  (getFontData cat fid, cat)

/-- `{type: text[i], d: char.d, o: char.o}`, the `{type:'newline'}` marker,
or the `{type:'space'}` marker pushed by `renderTextArray`. -/
inductive ArrRec where
  | glyph (type : Char) (rec : CharRec)
  | newline
  | space
  deriving DecidableEq, Repr

/-- Merged options of `renderTextArray` (defaults applied). -/
structure ArrOptions where
  font : String := "futural"

/-- Result of `renderTextArray`: the record array, or the `false`
sentinel produced by the catch block. -/
inductive ArrayResult where
  | ok (recs : List ArrRec)
  | failure
  deriving DecidableEq, Repr

/-- `text.replace(/\r\n/g, "\n")`: one left-to-right non-overlapping
global replacement of CRLF by LF. -/
def crlfFold : List Char → List Char
  | [] => []
  | [c] => [c]
  | c1 :: c2 :: rest =>
    if c1 = '\r' ∧ c2 = '\n' then '\n' :: crlfFold rest
    else c1 :: crlfFold (c2 :: rest)

/-- The per-character loop of `renderTextArray` (lines 333-344): a
resolved glyph is pushed; an unresolved newline pushes the newline
marker; an unresolved space pushes the space marker; any other
unresolved character falls through all branches and is dropped. -/
def renderTextArrayGo (font : FontData) : List Char → List ArrRec
  | [] => []
  | c :: rest =>
    match font.getChar c with
    | some rec => .glyph c rec :: renderTextArrayGo font rest
    | none =>
      if c = '\n' then .newline :: renderTextArrayGo font rest
      else if c = ' ' then .space :: renderTextArrayGo font rest
      else renderTextArrayGo font rest

/-- Body of `renderTextArray` inside the try block. -/
def renderTextArrayBody (cat : Catalog) (text : String) (opts : ArrOptions) :
    Except JsErr (List ArrRec) :=
  match getFontData cat opts.font with
  | .ok font => .ok (renderTextArrayGo font (crlfFold text.data))
  | .error e => .error e

/-- `exports.renderTextArray` (lines 318-351): CRLF folding, then the
try block; the catch converts any exception to the `false` sentinel. -/
def renderTextArray (cat : Catalog) (text : String) (opts : ArrOptions) :
    ArrayResult :=
  match renderTextArrayBody cat text opts with
  | .ok recs => .ok recs
  | .error _ => .failure

/-- The `pos` option (`{x, y}`). -/
structure PosXY where
  x : ℚ
  y : ℚ
  deriving DecidableEq, Repr

/-- Merged options of `renderTextSVG` (lines 200-209): defaults applied,
optional keys kept optional.  JS truthiness of `wrapWidth`,
`centerWidth`, `centerHeight` is tested with `truthyQ`. -/
structure SVGOptions where
  font : String := "futural"
  id : Option String := none
  pos : Option PosXY := none
  charWidth : ℚ := 10
  charHeight : ℚ := 28
  scale : ℚ := 1
  wrapWidth : Option ℚ := none
  centerWidth : Option ℚ := none
  centerHeight : Option ℚ := none

/-- JS truthiness for an optional numeric option (absent and 0 are
falsy). -/
def truthyQ : Option ℚ → Bool
  | none => false
  | some q => decide (q ≠ 0)

/-- JS string coercion of a possibly-undefined id used in
`options.id + '-line-' + lineCount`. -/
def jsStr : Option String → String
  | some s => s
  | none => "undefined"

/-- JS `parseInt` applied to a number (it is stringified first, so the
value is truncated at the decimal point, i.e. rounded toward zero). -/
def ratTrunc (q : ℚ) : ℤ := if 0 ≤ q then ratFloor q else -(ratFloor (-q))

/-- `parseInt(char.o, 10)` on a resolved glyph record: the compact table
stores the integer advance directly; an SVG record's numeric `o` is
truncated. -/
def CharRec.oVal : CharRec → ℚ
  | .compact g => (g.o : ℚ)
  | .svg r => (ratTrunc r.o : ℚ)

/-- The `d` attribute value put on the emitted `<path>` element. -/
inductive PathD where
  | raw (s : String)
  | scaled (t : List OutTok)
  deriving DecidableEq, Repr

/-- `char.d` of a resolved glyph record. -/
def CharRec.dVal : CharRec → Option PathD
  | .compact g => g.d.map PathD.raw
  | .svg r => r.d.map PathD.scaled

/-- One `<path>` element appended to the current line group: its `d`
value, the pen offset recorded in its `translate(left, top)` transform,
and the `letter` attribute. -/
structure PathElem where
  d : Option PathD
  left : ℚ
  top : ℚ
  letter : Char
  deriving DecidableEq, Repr

/-- Mutable layout state of `renderTextSVG`: the pen offset and the
paths appended to the current line group. -/
structure LayoutSt where
  left : ℚ
  top : ℚ
  paths : List PathElem
  deriving DecidableEq, Repr

/-- Per-letter step (lines 239-262): a resolved glyph appends a `<path>`
at the current offset and advances the pen by `parseInt(char.o) +
charWidth`; an unresolved one advances by `charWidth + charWidth`. -/
def processChar (font : FontData) (charWidth : ℚ) (st : LayoutSt) (c : Char) :
    LayoutSt :=
  match font.getChar c with
  | some rec =>
    { left := st.left + rec.oVal + charWidth
      top := st.top
      paths := st.paths ++ [{ d := rec.dVal, left := st.left, top := st.top, letter := c }] }
  | none => { st with left := st.left + charWidth + charWidth }

/-- The inner `for (let i in word)` loop. -/
def processWord (font : FontData) (opts : SVGOptions) (st : LayoutSt)
    (word : List Char) : LayoutSt :=
  word.foldl (processChar font opts.charWidth) st

/-- End-of-word handling (lines 264-284).  With a truthy `wrapWidth` and
the pen past it the source increments the `const` binding `lineCount`
(and reassigns the `const` `$groupLine`), raising a TypeError; the
centering/offset writes made just before the raise are unobservable
because the catch discards everything.  Otherwise the inter-word gap
`charWidth * 2` is added. -/
def wordGap (opts : SVGOptions) (st : LayoutSt) : Except JsErr LayoutSt :=
  if truthyQ opts.wrapWidth then
    if st.left > opts.wrapWidth.getD 0 then .error .constAssign
    else .ok { st with left := st.left + opts.charWidth * 2 }
  else .ok { st with left := st.left + opts.charWidth * 2 }

/-- The outer `for (let w in words)` loop. -/
def processWords (font : FontData) (opts : SVGOptions) :
    List (List Char) → LayoutSt → Except JsErr LayoutSt
  | [], st => .ok st
  | w :: ws, st =>
    match wordGap opts (processWord font opts st w) with
    | .ok st2 => processWords font opts ws st2
    | .error e => .error e

/-- A line group `<g id="<id>-line-<n>">` with its optional centering
transform and its `<path>` children. -/
structure LineGroup where
  id : String
  transform : Option ℚ
  paths : List PathElem
  deriving DecidableEq, Repr

/-- The outer `<g>` produced by `renderTextSVG`: id, `scale(...)
translate(tx, ty)` transform, and the nested line groups. -/
structure TextGroupOut where
  id : Option String
  scale : ℚ
  tx : ℚ
  ty : ℚ
  lines : List LineGroup
  deriving DecidableEq, Repr

/-- Result of `renderTextSVG`: markup, or the `false` sentinel. -/
inductive SVGResult where
  | ok (g : TextGroupOut)
  | failure
  deriving DecidableEq, Repr

/-- Body of `renderTextSVG` inside the try block (lines 214-297): load
the font, read `options.pos` (TypeError when absent), run the word loop,
then apply the `centerWidth` transform to the current line group and the
`centerHeight` recomputation of the outer transform.  `lineCount` is `0`
throughout: the only statement that would change it raises instead, so a
successful return always carries the single line group `-line-0`. -/
def renderTextSVGBody (cat : Catalog) (text : String) (opts : SVGOptions) :
    Except JsErr TextGroupOut :=
  match getFontData cat opts.font with
  | .error e => .error e
  | .ok font =>
    match opts.pos with
    | none => .error .undefinedAccess
    | some pos =>
      match processWords font opts (splitOnSpace text.data) ⟨0, 0, []⟩ with
      | .error e => .error e
      | .ok st =>
        let lineTrans :=
          if truthyQ opts.centerWidth then
            some (opts.centerWidth.getD 0 / 2 - st.left / 2)
          else none
        let ty :=
          if truthyQ opts.centerHeight then
            opts.centerHeight.getD 0 / 2 - opts.charHeight * 1 / 2 + pos.y
          else pos.y
        .ok { id := opts.id
              scale := opts.scale
              tx := pos.x
              ty := ty
              lines := [{ id := jsStr opts.id ++ "-line-0"
                          transform := lineTrans
                          paths := st.paths }] }

/-- `exports.renderTextSVG` (lines 200-304): the catch block converts any
exception raised in the body to the `false` sentinel. -/
def renderTextSVG (cat : Catalog) (text : String) (opts : SVGOptions) :
    SVGResult :=
  match renderTextSVGBody cat text opts with
  | .ok g => .ok g
  | .error _ => .failure

/-! Concrete fixtures used by the closed theorems below. -/

/-- A one-glyph compact font standing in for `futural` (glyph for `!`). -/
def futuralMini : HersheyFont :=
  { name := "Sans 1-stroke", chars := [{ d := some "M 5 8 L 5 18", o := 10 }] }

/-- A catalog holding only the compact font above. -/
def catHershey : Catalog :=
  { fonts := fun fid => if fid = "futural" then some futuralMini else none
    svgFonts := fun _ => none }

/-- An SVG font file whose glyph list does contain a width-only space
glyph, as the real EMS font files do. -/
def emsyFile : SvgFontFile :=
  { face := some { unitsPerEm := 1000 }
    glyphs :=
      [ { unicode := " ", glyphName := "space", horizAdvX := 226, d := none }
      , { unicode := "a", glyphName := "a", horizAdvX := 500, d := some "M 1 2" } ] }

/-- A catalog holding only the SVG font above. -/
def catSvg : Catalog :=
  { fonts := fun _ => none
    svgFonts := fun fid => if fid = "emsy" then some emsyFile else none }

/-- The empty catalog: every font identifier is unknown. -/
def catEmpty : Catalog := { fonts := fun _ => none, svgFonts := fun _ => none }

/-- A catalog with an SVG font file lacking its `<font-face>` element, so
loading it raises (property access on `undefined`). -/
def catBadSvg : Catalog :=
  { fonts := fun _ => none
    svgFonts := fun fid =>
      if fid = "bad" then
        some { face := none
               glyphs := [{ unicode := "a", glyphName := "a", horizAdvX := 10, d := none }] }
      else none }

/-! Helper lemmas. -/

/-- Folding CRLF leaves a non-CR head character in place. -/
theorem crlfFold_cons {c : Char} (hc : c ≠ '\r') (l : List Char) :
    crlfFold (c :: l) = c :: crlfFold l := by
  cases l with
  | nil => rfl
  | cons d ds =>
    simp only [crlfFold]
    rw [if_neg (fun h => hc h.1)]

/-- CRLF folding passes over a CR-free block unchanged. -/
theorem crlfFold_append {t1 : List Char} (h : '\r' ∉ t1) (l : List Char) :
    crlfFold (t1 ++ l) = t1 ++ crlfFold l := by
  induction t1 with
  | nil => rfl
  | cons c cs ih =>
    have hc : c ≠ '\r' := fun hh => h (hh ▸ List.mem_cons_self c cs)
    have hcs : '\r' ∉ cs := fun hh => h (List.mem_cons_of_mem c hh)
    rw [List.cons_append, crlfFold_cons hc, ih hcs]
    rfl

/-- Processing one glyph never creates an entry under the space key:
space glyphs are skipped and every other glyph writes its own key. -/
theorem addGlyph_space (face : Option FontFace) (m : String → Option SvgCharRec)
    (g : SvgGlyph) (m2 : String → Option SvgCharRec)
    (h : addGlyph face m g = .ok m2) : m2 " " = m " " := by
  unfold addGlyph at h
  split at h
  · cases h
    rfl
  next hu =>
    split at h
    · cases h
    · split at h
      · cases h
      · cases h
        exact Function.update_noteq (fun hh => hu hh.symm) _ m

/-- The glyph loop never creates an entry under the space key. -/
theorem foldGlyphs_space (face : Option FontFace) (gs : List SvgGlyph) :
    ∀ m m2 : String → Option SvgCharRec,
      foldGlyphs face gs m = .ok m2 → m2 " " = m " " := by
  induction gs with
  | nil =>
    intro m m2 h
    cases h
    rfl
  | cons g rest ih =>
    intro m m2 h
    unfold foldGlyphs at h
    cases ha : addGlyph face m g with
    | error e => rw [ha] at h; cases h
    | ok mg =>
      rw [ha] at h
      rw [ih mg m2 h, addGlyph_space face m g mg ha]

/-- With the degenerate invalid font every character is unresolved, so
the array renderer keeps exactly the newline and space markers. -/
theorem renderTextArrayGo_invalid (l : List Char) :
    renderTextArrayGo .invalid l =
      l.filterMap (fun c =>
        if c = '\n' then some ArrRec.newline
        else if c = ' ' then some ArrRec.space else none) := by
  induction l with
  | nil => rfl
  | cons c rest ih =>
    simp only [renderTextArrayGo, FontData.getChar, List.filterMap_cons]
    by_cases h1 : c = '\n'
    · simp [h1, ih]
    · by_cases h2 : c = ' ' <;> simp [h1, h2, ih]

/-- With the invalid font the letter loop appends no paths. -/
theorem processWord_invalid_paths (opts : SVGOptions) (w : List Char) :
    ∀ st : LayoutSt, (processWord .invalid opts st w).paths = st.paths := by
  induction w with
  | nil => intro st; rfl
  | cons c cs ih =>
    intro st
    show (processWord .invalid opts (processChar .invalid opts.charWidth st c) cs).paths = st.paths
    rw [ih]
    rfl

/-- With wrapping disabled the inter-word step cannot raise. -/
theorem wordGap_no_wrap (opts : SVGOptions) (hw : truthyQ opts.wrapWidth = false)
    (st : LayoutSt) :
    wordGap opts st = .ok { st with left := st.left + opts.charWidth * 2 } := by
  unfold wordGap
  rw [hw]
  rfl

/-- With the invalid font and wrapping disabled the word loop succeeds
and appends no paths. -/
theorem processWords_invalid (opts : SVGOptions) (hw : truthyQ opts.wrapWidth = false)
    (ws : List (List Char)) :
    ∀ st : LayoutSt, ∃ st2,
      processWords .invalid opts ws st = .ok st2 ∧ st2.paths = st.paths := by
  induction ws with
  | nil => intro st; exact ⟨st, rfl, rfl⟩
  | cons w rest ih =>
    intro st
    have hpw := processWord_invalid_paths opts w st
    simp only [processWords, wordGap_no_wrap opts hw]
    obtain ⟨st2, hst2, hpaths⟩ :=
      ih { processWord .invalid opts st w with left := (processWord .invalid opts st w).left + opts.charWidth * 2 }
    exact ⟨st2, hst2, by rw [hpaths]; exact hpw⟩

/-- Evaluation rule for `round2` at a concrete rational. -/
theorem round2_eq_of (q r : ℚ) (n : ℤ) (h1 : (n : ℚ) ≤ q * 100 + 1/2)
    (h2 : q * 100 + 1/2 < n + 1) (h3 : (n : ℚ) / 100 = r) : round2 q = r := by
  unfold round2 jsRound ratFloor
  rw [Int.floor_eq_iff.mpr ⟨h1, h2⟩, h3]

/-- Concrete `parseFloat` evaluation: a letter is NaN. -/
theorem parseFloatQ_M : parseFloatQ ['M'] = none := rfl

/-- Concrete `parseFloat` evaluation. -/
theorem parseFloatQ_one : parseFloatQ ['1'] = some 1 := by
  rw [show parseFloatQ ['1'] = some (((1 : ℕ) : ℚ) + ((0 : ℕ) : ℚ) / 10 ^ (0 : ℕ)) from rfl]
  norm_num

/-- Concrete `parseFloat` evaluation. -/
theorem parseFloatQ_two : parseFloatQ ['2'] = some 2 := by
  rw [show parseFloatQ ['2'] = some (((2 : ℕ) : ℚ) + ((0 : ℕ) : ℚ) / 10 ^ (0 : ℕ)) from rfl]
  norm_num

/-- Concrete `parseFloat` evaluation. -/
theorem parseFloatQ_three : parseFloatQ ['3'] = some 3 := by
  rw [show parseFloatQ ['3'] = some (((3 : ℕ) : ℚ) + ((0 : ℕ) : ℚ) / 10 ^ (0 : ℕ)) from rfl]
  norm_num

/-- Step of the loop on a numeric token in state `'y'`: the Y-flipped
value is pushed and the state stays `'y'`. -/
theorem gsLoop_cons_num_y (hh ss : ℚ) (v : List Char) (pv : ℚ)
    (hv : parseFloatQ v = some pv) (rest : List (List Char)) :
    gsLoop hh ss (v :: rest) false =
      Except.map (fun out => OutTok.num (round2 ((hh - pv) * ss)) :: out)
        (gsLoop hh ss rest false) := by
  simp [gsLoop, hv]

/-- Step of the loop on a numeric token in state `'x'`: the X-scaled
value is pushed and the state moves to `'y'`. -/
theorem gsLoop_cons_num_x (hh ss : ℚ) (v : List Char) (pv : ℚ)
    (hv : parseFloatQ v = some pv) (rest : List (List Char)) :
    gsLoop hh ss (v :: rest) true =
      Except.map (fun out => OutTok.num (round2 (pv * ss)) :: out)
        (gsLoop hh ss rest false) := by
  simp [gsLoop, hv]

/-- Step of the loop on a single-character non-numeric token from any
state: the token passes through and the state resets to `'x'`. -/
theorem gsLoop_cons_str (hh ss : ℚ) (v : List Char) (hv : parseFloatQ v = none)
    (hlen : ¬ v.length > 1) (b : Bool) (rest : List (List Char)) :
    gsLoop hh ss (v :: rest) b =
      Except.map (fun out => OutTok.str v :: out) (gsLoop hh ss rest true) := by
  simp [gsLoop, hv, hlen]

/-- A run of numeric tokens processed in state `'y'` emits Y-flipped
values only; the state never returns to `'x'` inside the run. -/
theorem gsLoop_yrun (hh ss : ℚ) (vs : List (List Char × ℚ)) (rest : List (List Char))
    (hvs : ∀ p ∈ vs, parseFloatQ p.1 = some p.2) :
    gsLoop hh ss (vs.map Prod.fst ++ rest) false =
      (gsLoop hh ss rest false).map
        (fun out => vs.map (fun p => OutTok.num (round2 ((hh - p.2) * ss))) ++ out) := by
  induction vs with
  | nil =>
    simp only [List.map_nil, List.nil_append]
    cases gsLoop hh ss rest false <;> simp [Except.map]
  | cons p ps ih =>
    have hp : parseFloatQ p.1 = some p.2 := hvs p (List.mem_cons_self p ps)
    have hps : ∀ q ∈ ps, parseFloatQ q.1 = some q.2 :=
      fun q hq => hvs q (List.mem_cons_of_mem p hq)
    rw [List.map_cons, List.cons_append, gsLoop_cons_num_y hh ss p.1 p.2 hp, ih hps]
    cases gsLoop hh ss rest false <;> simp [Except.map]

/-! Claim theorems. -/

/-- C1: the spec claims that when the pen offset exceeds `wrapWidth`
after a word, `renderTextSVG` wraps to a new line group and still returns
a markup fragment.  In the source, reaching the wrap branch executes
`lineCount++` on the `const` binding `lineCount` (and reassigns the
`const` `$groupLine`), raising a TypeError; the catch block turns the
whole call into the `false` sentinel.  At the failing input below the
first word already pushes the offset to 40 > 1, so the call returns the
sentinel instead of wrapped markup. -/
theorem c1_wrap_raises_const_assignment :
    renderTextSVGBody catHershey "ab"
        { id := some "t", pos := some ⟨0, 0⟩, wrapWidth := some 1 } =
      .error .constAssign ∧
    renderTextSVG catHershey "ab"
        { id := some "t", pos := some ⟨0, 0⟩, wrapWidth := some 1 } =
      .failure := by
  have hpw : processWord (.compact futuralMini.name futuralMini.chars)
      { id := some "t", pos := some ⟨0, 0⟩, wrapWidth := some 1 } ⟨0, 0, []⟩ ['a', 'b'] =
      ⟨0 + 10 + 10 + 10 + 10, 0, []⟩ := rfl
  have hwg : wordGap ({ id := some "t", pos := some ⟨0, 0⟩, wrapWidth := some 1 } : SVGOptions)
      (processWord (.compact futuralMini.name futuralMini.chars)
        { id := some "t", pos := some ⟨0, 0⟩, wrapWidth := some 1 } ⟨0, 0, []⟩ ['a', 'b']) =
      .error .constAssign := by
    rw [hpw]
    unfold wordGap
    rw [if_pos (by norm_num [truthyQ]), if_pos (by norm_num [Option.getD_some])]
  have hfont : getFontData catHershey "futural" =
      .ok (.compact futuralMini.name futuralMini.chars) := rfl
  have hsplit : splitOnSpace ("ab".data) = [['a', 'b']] := rfl
  constructor
  · simp only [renderTextSVGBody, hfont, hsplit, processWords, hwg]
  · simp only [renderTextSVG, renderTextSVGBody, hfont, hsplit, processWords, hwg]

/-- C4 counterexample: the claim predicts strict X/Y alternation, so on
`"M 1 2 3"` (height 10, scale 1) the token `3` would be an X value and
stay `3`; the code keeps `lastCoord = 'y'` after the first Y value and
emits `(10 - 3) * 1 = 7` instead. -/
theorem c4_counterexample :
    glyphScale (some "M 1 2 3") 10 1 =
      .ok (some [OutTok.str ['M'], OutTok.num 1, OutTok.num 8, OutTok.num 7]) ∧
    glyphScale (some "M 1 2 3") 10 1 ≠
      .ok (some [OutTok.str ['M'], OutTok.num 1, OutTok.num 8, OutTok.num 3]) := by
  have hg : glyphScale (some "M 1 2 3") 10 1 =
      (gsLoop 10 1 [['M'], ['1'], ['2'], ['3']] true).map some := rfl
  have hloop : gsLoop 10 1 [['M'], ['1'], ['2'], ['3']] true =
      .ok [OutTok.str ['M'], OutTok.num 1, OutTok.num 8, OutTok.num 7] := by
    rw [gsLoop_cons_str 10 1 ['M'] parseFloatQ_M (by decide) true,
      gsLoop_cons_num_x 10 1 ['1'] 1 parseFloatQ_one,
      gsLoop_cons_num_y 10 1 ['2'] 2 parseFloatQ_two,
      gsLoop_cons_num_y 10 1 ['3'] 3 parseFloatQ_three,
      show gsLoop 10 1 [] false = .ok [] from rfl,
      round2_eq_of (1 * 1) 1 100 (by norm_num) (by norm_num) (by norm_num),
      round2_eq_of ((10 - 2) * 1) 8 800 (by norm_num) (by norm_num) (by norm_num),
      round2_eq_of ((10 - 3) * 1) 7 700 (by norm_num) (by norm_num) (by norm_num)]
    rfl
  constructor
  · rw [hg, hloop]
    rfl
  · rw [hg, hloop]
    intro h
    simp only [Except.map, Except.ok.injEq, Option.some.injEq, List.cons.injEq,
      OutTok.num.injEq] at h
    exact absurd h.2.2.2.1 (by norm_num)

/-- C4 (amended): after tokenization, the first numeric token following a
command letter is an X value (`round2 (value * scale)`), and every
further numeric token before the next non-numeric token is a Y value
(`round2 ((height - value) * scale)`); a command letter resets the state
so the next numeric token is X again.  The tokens do not strictly
alternate: `lastCoord` is never set back to `'x'` after a Y value. -/
theorem c4_segment_first_x_rest_y (hh ss : ℚ) (b : Bool)
    (c : List Char) (hc : parseFloatQ c = none) (hlen : ¬ c.length > 1)
    (x : List Char) (xv : ℚ) (hx : parseFloatQ x = some xv)
    (vs : List (List Char × ℚ)) (hvs : ∀ p ∈ vs, parseFloatQ p.1 = some p.2)
    (rest : List (List Char)) :
    gsLoop hh ss (c :: x :: vs.map Prod.fst ++ rest) b =
      (gsLoop hh ss rest false).map
        (fun out => OutTok.str c :: OutTok.num (round2 (xv * ss)) ::
          (vs.map (fun p => OutTok.num (round2 ((hh - p.2) * ss))) ++ out)) := by
  rw [show c :: x :: vs.map Prod.fst ++ rest = c :: (x :: (vs.map Prod.fst ++ rest)) from rfl]
  rw [gsLoop_cons_str hh ss c hc hlen b, gsLoop_cons_num_x hh ss x xv hx,
    gsLoop_yrun hh ss vs rest hvs]
  cases gsLoop hh ss rest false <;> simp [Except.map]

/-- C4 witness: the amended statement applied to the concrete segment
`M 1 2 3` with height 10 and scale 1. -/
theorem c4_segment_witness :
    gsLoop 10 1 [['M'], ['1'], ['2'], ['3']] true =
      .ok [OutTok.str ['M'], OutTok.num (round2 (1 * 1)),
        OutTok.num (round2 ((10 - 2) * 1)), OutTok.num (round2 ((10 - 3) * 1))] := by
  have hvs : ∀ p ∈ [(['2'], (2 : ℚ)), (['3'], 3)], parseFloatQ p.1 = some p.2 := by
    intro p hp
    simp only [List.mem_cons, List.not_mem_nil, or_false] at hp
    rcases hp with rfl | rfl
    · exact parseFloatQ_two
    · exact parseFloatQ_three
  have h := c4_segment_first_x_rest_y 10 1 true ['M'] parseFloatQ_M (by decide)
    ['1'] 1 parseFloatQ_one [(['2'], 2), (['3'], 3)] hvs []
  simpa [gsLoop, Except.map] using h

/-- C5 counterexample: on input `1-2` no space is inserted before the
minus sign, although it follows a digit; the claim predicts `1 -2`. -/
theorem c5_counterexample :
    cleanD "1-2".data = "1-2".data ∧ cleanD "1-2".data ≠ "1 -2".data := by
  exact ⟨by decide, by decide⟩

/-- C5 (amended): in the tokenization pass, a minus sign gets a preceding
space exactly when the previously processed character was a command
letter (the `lastGood` flag is false); a minus sign immediately following
a digit gets no space, because a digit sets `lastGood` to true. -/
theorem c5_minus_space_rule (b : Bool) (c : Char) (rest : List Char) :
    (isDigitChar c = true →
      cleanDCore (c :: '-' :: rest) b =
        (if b then [] else [' ']) ++ c :: '-' :: cleanDCore rest true) ∧
    (¬(c = ' ' ∨ c = '.' ∨ c = '-') → isDigitChar c = false →
      cleanDCore (c :: '-' :: rest) b =
        ' ' :: c :: ' ' :: '-' :: cleanDCore rest true) := by
  constructor
  · intro hd
    have hne : ¬(c = ' ' ∨ c = '.' ∨ c = '-') := by
      rintro (rfl | rfl | rfl) <;> simp [isDigitChar] at hd
    cases b <;> simp [cleanDCore, hne, hd]
  · intro hne hd
    simp [cleanDCore, hne, hd]

/-- C5 witness: a minus after the digit `5` stays glued; a minus after
the letter `M` receives a space. -/
theorem c5_minus_space_rule_witness :
    cleanDCore ['5', '-', '3'] true = '5' :: '-' :: cleanDCore ['3'] true ∧
    cleanDCore ['M', '-', '5'] true = ' ' :: 'M' :: ' ' :: '-' :: cleanDCore ['5'] true := by
  constructor
  · have h := (c5_minus_space_rule true '5' ['3']).1 (by decide)
    simpa using h
  · exact (c5_minus_space_rule true 'M' ['5']).2 (by decide) (by decide)

/-- C6: for a compact font, a character with code point below 33 or with
index at or beyond the glyph table length resolves to absent, and font
loading itself succeeds (no exception is possible on this path: the
embedding returns `Except.ok` and the lookup is a total function). -/
theorem c6_compact_out_of_range (cat : Catalog) (fid : String) (hf : HersheyFont)
    (c : Char) (h : cat.fonts fid = some hf)
    (hr : c.toNat < 33 ∨ hf.chars.length + 33 ≤ c.toNat) :
    getFontData cat fid = .ok (.compact hf.name hf.chars) ∧
      (FontData.compact hf.name hf.chars).getChar c = none := by
  constructor
  · simp [getFontData, h]
  · simp only [FontData.getChar]
    rcases hr with hlt | hge
    · rw [if_pos (by omega)]
    · rw [if_neg (by omega), List.get?_eq_none.mpr (by omega)]
      rfl

/-- C6 witness: the space character (code point 32) is absent from the
concrete compact catalog, and loading succeeded. -/
theorem c6_compact_out_of_range_witness :
    getFontData catHershey "futural" = .ok (.compact futuralMini.name futuralMini.chars) ∧
      (FontData.compact futuralMini.name futuralMini.chars).getChar ' ' = none :=
  c6_compact_out_of_range catHershey "futural" futuralMini ' ' rfl (Or.inl (by decide))

/-- C2 counterexample: the concrete SVG font file does carry a width-only
space glyph, yet after loading, the space lookup is absent — the loader
skips every glyph whose unicode is the space character.  (`some none`
means: the font loaded without an exception and the lookup is absent.) -/
theorem c2_counterexample :
    emsyFile.glyphs.any (fun g => g.unicode == " ") = true ∧
    resolveChar catSvg "emsy" ' ' = some none := by
  exact ⟨rfl, rfl⟩

/-- C2 (amended): for every outline (SVG) font, the loaded glyph table
has no entry for the space character: either loading raises (and the
resolver yields no font at all) or the space lookup is absent.  A present
space record is impossible. -/
theorem c2_svg_space_absent (cat : Catalog) (fid : String) (sf : SvgFontFile)
    (h1 : cat.fonts fid = none) (h2 : cat.svgFonts fid = some sf) :
    resolveChar cat fid ' ' = some none ∨ resolveChar cat fid ' ' = none := by
  unfold resolveChar getFontData
  rw [h1, h2]
  cases hfold : foldGlyphs sf.face sf.glyphs (fun _ => none) with
  | error e =>
    right
    simp [hfold, Except.map]
  | ok m2 =>
    left
    simp only [hfold, Except.map, FontData.getChar]
    rw [show String.singleton ' ' = " " from rfl,
      foldGlyphs_space sf.face sf.glyphs (fun _ => none) m2 hfold]
    rfl

/-- C2 witness: the amended statement applied to the concrete catalog. -/
theorem c2_svg_space_absent_witness :
    resolveChar catSvg "emsy" ' ' = some none ∨ resolveChar catSvg "emsy" ' ' = none :=
  c2_svg_space_absent catSvg "emsy" emsyFile rfl rfl

/-- C3 counterexample: a tab character does not resolve against the
compact font and is not a newline, yet `renderTextArray` appends nothing
for it — no space-substitute record appears; the output is empty. -/
theorem c3_counterexample :
    renderTextArray catHershey "\t" {} = .ok [] := rfl

/-- C3 (amended): an unresolved character is kept only when it is
exactly a newline (newline marker) or exactly a space (space marker);
every other unresolved character is silently dropped — the output equals
the output of the same text without that character. -/
theorem c3_unresolved_dropped (cat : Catalog) (opts : ArrOptions) (f : FontData)
    (hfont : getFontData cat opts.font = .ok f) (c : Char)
    (hres : f.getChar c = none) (hn : c ≠ '\n') (hs : c ≠ ' ') (hr : c ≠ '\r')
    (rest : List Char) :
    renderTextArray cat (String.mk (c :: rest)) opts =
      renderTextArray cat (String.mk rest) opts := by
  unfold renderTextArray renderTextArrayBody
  rw [hfont,
    show (String.mk (c :: rest)).data = c :: rest from rfl,
    show (String.mk rest).data = rest from rfl,
    crlfFold_cons hr rest]
  simp [renderTextArrayGo, hres, hn, hs]

/-- C3 witness: the amended statement at a tab followed by a resolvable
character. -/
theorem c3_unresolved_dropped_witness :
    renderTextArray catHershey (String.mk ['\t', '!']) {} =
      renderTextArray catHershey (String.mk ['!']) {} :=
  c3_unresolved_dropped catHershey {} (.compact futuralMini.name futuralMini.chars)
    rfl '\t' rfl (by decide) (by decide) (by decide) ['!']

/-- C7: an identifier in neither table resolves to the degenerate font:
every character lookup is absent, the array renderer returns the newline
and space markers only (no glyph records), and the SVG renderer (with a
position supplied and wrapping disabled) returns markup whose line groups
carry no paths — never the failure sentinel, never an exception. -/
theorem c7_unknown_font_blank (cat : Catalog) (fid : String)
    (h1 : cat.fonts fid = none) (h2 : cat.svgFonts fid = none)
    (t : String) (aopts : ArrOptions) (ha : aopts.font = fid)
    (sopts : SVGOptions) (hsf : sopts.font = fid)
    (p : PosXY) (hp : sopts.pos = some p) (hw : truthyQ sopts.wrapWidth = false) :
    (∀ c : Char, resolveChar cat fid c = some none) ∧
    renderTextArray cat t aopts =
      .ok ((crlfFold t.data).filterMap (fun c =>
        if c = '\n' then some ArrRec.newline
        else if c = ' ' then some ArrRec.space else none)) ∧
    ∃ g, renderTextSVG cat t sopts = .ok g ∧ ∀ lg ∈ g.lines, lg.paths = [] := by
  have hfd : getFontData cat fid = .ok .invalid := by
    simp [getFontData, h1, h2]
  refine ⟨fun c => ?_, ?_, ?_⟩
  · simp [resolveChar, hfd, FontData.getChar]
  · unfold renderTextArray renderTextArrayBody
    simp only [ha, hfd]
    rw [renderTextArrayGo_invalid]
  · unfold renderTextSVG renderTextSVGBody
    obtain ⟨st2, hst2, hpaths⟩ :=
      processWords_invalid sopts hw (splitOnSpace t.data) ⟨0, 0, []⟩
    rw [hsf]
    simp only [hfd, hp, hst2]
    refine ⟨_, rfl, ?_⟩
    intro lg hlg
    simp only [List.mem_singleton] at hlg
    rw [hlg]
    exact hpaths

/-- C7 witness: the unknown font in the empty catalog renders "hi there"
to the single space marker in array mode and to path-free markup in SVG
mode. -/
theorem c7_unknown_font_blank_witness :
    resolveChar catEmpty "nope" 'h' = some none ∧
    renderTextArray catEmpty "hi there" { font := "nope" } = .ok [ArrRec.space] ∧
    renderTextSVG catEmpty "hi there" { font := "nope", pos := some ⟨0, 0⟩ } =
      .ok { id := none, scale := 1, tx := 0, ty := 0,
            lines := [{ id := "undefined-line-0", transform := none, paths := [] }] } := by
  have h := c7_unknown_font_blank catEmpty "nope" rfl rfl "hi there"
    { font := "nope" } rfl { font := "nope", pos := some ⟨0, 0⟩ } rfl ⟨0, 0⟩ rfl rfl
  exact ⟨h.1 'h', h.2.1.trans rfl, rfl⟩

/-- C8: exceptions raised inside the try blocks of either renderer are
converted to the `false` sentinel at the entry point: whenever the body
raises, the entry point returns the sentinel (carrying no partial
output), and every call returns either a real result or the sentinel —
the result type has no raising alternative, so nothing propagates. -/
theorem c8_exceptions_to_sentinel (cat : Catalog) (t : String)
    (sopts : SVGOptions) (aopts : ArrOptions) :
    (∀ e, renderTextSVGBody cat t sopts = .error e →
      renderTextSVG cat t sopts = .failure) ∧
    (∀ e, renderTextArrayBody cat t aopts = .error e →
      renderTextArray cat t aopts = .failure) ∧
    ((∃ g, renderTextSVG cat t sopts = .ok g) ∨ renderTextSVG cat t sopts = .failure) ∧
    ((∃ r, renderTextArray cat t aopts = .ok r) ∨ renderTextArray cat t aopts = .failure) := by
  refine ⟨fun e he => ?_, fun e he => ?_, ?_, ?_⟩
  · unfold renderTextSVG
    rw [he]
  · unfold renderTextArray
    rw [he]
  · unfold renderTextSVG
    cases renderTextSVGBody cat t sopts with
    | ok g => exact Or.inl ⟨g, rfl⟩
    | error e => exact Or.inr rfl
  · unfold renderTextArray
    cases renderTextArrayBody cat t aopts with
    | ok r => exact Or.inl ⟨r, rfl⟩
    | error e => exact Or.inr rfl

/-- C8 witness: a missing `pos` makes the SVG body raise (property access
on `undefined`), and an SVG font file without a font-face element makes
the array body raise; both calls return the sentinel. -/
theorem c8_exceptions_to_sentinel_witness :
    renderTextSVG catEmpty "A" {} = .failure ∧
    renderTextArray catBadSvg "A" { font := "bad" } = .failure := by
  constructor
  · exact (c8_exceptions_to_sentinel catEmpty "A" {} {}).1 .undefinedAccess rfl
  · exact (c8_exceptions_to_sentinel catBadSvg "A" {} { font := "bad" }).2.1
      .undefinedAccess rfl

/-- C9: CRLF is folded to LF before per-character resolution, so
`renderTextArray "A\r\nB"` equals `renderTextArray "A\nB"` for every
catalog and every font option; in general a CRLF pair after a CR-free
prefix renders identically to a lone LF there. -/
theorem c9_crlf_folding (cat : Catalog) (aopts : ArrOptions) :
    renderTextArray cat "A\r\nB" aopts = renderTextArray cat "A\nB" aopts ∧
    ∀ t1 t2 : List Char, '\r' ∉ t1 →
      renderTextArray cat (String.mk (t1 ++ '\r' :: '\n' :: t2)) aopts =
        renderTextArray cat (String.mk (t1 ++ '\n' :: t2)) aopts := by
  constructor
  · rfl
  · intro t1 t2 h
    unfold renderTextArray renderTextArrayBody
    rw [show (String.mk (t1 ++ '\r' :: '\n' :: t2)).data = t1 ++ '\r' :: '\n' :: t2 from rfl,
      show (String.mk (t1 ++ '\n' :: t2)).data = t1 ++ '\n' :: t2 from rfl,
      crlfFold_append h, crlfFold_append h,
      show crlfFold ('\r' :: '\n' :: t2) = '\n' :: crlfFold t2 from by simp [crlfFold],
      crlfFold_cons (by decide) t2]

/-- C9 witness: both parts of the statement at the concrete compact
catalog. -/
theorem c9_crlf_folding_witness :
    renderTextArray catHershey "A\r\nB" {} = renderTextArray catHershey "A\nB" {} ∧
    renderTextArray catHershey (String.mk ['X', '\r', '\n', 'Y']) {} =
      renderTextArray catHershey (String.mk ['X', '\n', 'Y']) {} := by
  constructor
  · exact (c9_crlf_folding catHershey {}).1
  · exact (c9_crlf_folding catHershey {}).2 ['X'] ['Y'] (by decide)

/-- C10: glyph lookup is deterministic and mutation-free.  In the
state-passing embedding (faithful to a source that never writes to the
font tables) `getFontData` returns the catalog unchanged, a second call
on the resulting state returns the same font result, and resolution of
any character through the returned state equals resolution through the
original catalog. -/
theorem c10_lookup_pure (cat : Catalog) (fid : String) (c : Char) :
    (getFontDataSt cat fid).2 = cat ∧
    (getFontDataSt ((getFontDataSt cat fid).2) fid).1 = (getFontDataSt cat fid).1 ∧
    resolveChar ((getFontDataSt cat fid).2) fid c = resolveChar cat fid c :=
  ⟨rfl, rfl, rfl⟩
